import Mathlib

/-!
Verification of the ensemble inference workflow `run_ensemble` from
`examples/02_ensemble_workflow.py` (earth2studio).

The workflow is orchestration glue over injected collaborators (data source,
prognostic model, perturbation method, IO backend).  The body of
`run_ensemble` is translated line by line from the source; the collaborators,
whose code lives outside this repository, are modelled from the specification
(section 6) as explicit function parameters and interface structures.

Conventions of the shallow embedding:
* coordinate systems are ordered association lists (Python dicts preserve
  insertion order); dict assignment updates an existing key in place and
  appends a fresh key, exactly as in CPython;
* tensors are a shape together with a flat data list of integers (the claims
  under verification are structural, about shapes, counts and ordering, not
  about floating-point values);
* fallible collaborator calls return `Except Err`;
* the ambient random state consumed by the perturbation method is threaded as
  an explicit `seed : Nat` argument;
* the `for`-loop over the logically infinite prognostic iterator is embedded
  with an explicit `fuel : Nat`; a result of `none` means the loop has not
  terminated within `fuel` iterations (so `none` for every fuel is
  non-termination);
* the externally observable behaviour of a run is its list of `RunEvent`s
  (the data fetch, the single schema declaration, and the writes) together
  with its outcome.
-/

namespace EnsembleWorkflow

/-- Errors raised by collaborators or by the runtime (Python exceptions). -/
abbrev Err := String

/-- A coordinate value along one dimension: either a numeric axis (times,
lead times, latitudes, ensemble indices) or a list of variable names. -/
inductive CoordVal where
  | ints (l : List Int)
  | strs (l : List String)
deriving DecidableEq, Repr

/-- An ordered mapping from dimension name to coordinate values, the
`CoordSystem` of the data model (a Python `dict`, insertion ordered). -/
abbrev CoordSystem := List (String × CoordVal)

/-- Dictionary lookup: value of the first entry of key `k`, if any. -/
def dictLookup (d : CoordSystem) (k : String) : Option CoordVal :=
  match d with
  | [] => none
  | (k1, v) :: rest => if k1 = k then some v else dictLookup rest k

/-- Python `d[k]`: returns the value or raises `KeyError`. -/
def dictGet (d : CoordSystem) (k : String) : Except Err CoordVal :=
  match dictLookup d k with
  | some v => .ok v
  | none => .error ("KeyError: " ++ k)

/-- Python `d[k] = v`: updates an existing key in place (keeping its
position), appends a fresh key at the end. -/
def dictSet (d : CoordSystem) (k : String) (v : CoordVal) : CoordSystem :=
  match d with
  | [] => [(k, v)]
  | (k1, v1) :: rest => if k1 = k then (k1, v) :: rest else (k1, v1) :: dictSet rest k v

/-- Python `d.pop(k)`: removes the entry of key `k`, returning its value and
the remaining dict; raises `KeyError` if absent. -/
def dictPop (d : CoordSystem) (k : String) : Except Err (CoordVal × CoordSystem) :=
  match d with
  | [] => .error ("KeyError: " ++ k)
  | (k1, v1) :: rest =>
    if k1 = k then .ok (v1, rest)
    else
      match dictPop rest k with
      | .ok (v, rest2) => .ok (v, (k1, v1) :: rest2)
      | .error e => .error e

/-- Removal of the entry of key `k` (if present), keeping the rest. -/
def dictErase (d : CoordSystem) (k : String) : CoordSystem :=
  match d with
  | [] => []
  | (k1, v1) :: rest => if k1 = k then rest else (k1, v1) :: dictErase rest k

/-- Python `a | b` on dicts: keys of `a` first (values overridden by `b`
where both have the key), then the keys of `b` not in `a`. -/
def dictUnion (a b : CoordSystem) : CoordSystem :=
  (a.map fun p => (p.1, match dictLookup b p.1 with | some v => v | none => p.2))
    ++ b.filter fun p => (dictLookup a p.1).isNone

/-- A tensor: a shape and a flat data list (row-major). -/
structure Tensor where
  shape : List Nat
  data : List Int
deriving DecidableEq, Repr

/-- Number of scalar entries in one slice along the leading axis. -/
def Tensor.memberSize (x : Tensor) : Nat := (x.shape.drop 1).prod

/-- The `i`-th slice of the tensor along its leading axis (flat data). -/
def Tensor.memberSlice (x : Tensor) (i : Nat) : List Int :=
  (x.data.drop (i * x.memberSize)).take x.memberSize

/-- `x.unsqueeze(0).repeat(n, 1, ..., 1)`: prepend a new leading axis of
size `n`, replicating the whole tensor along it. -/
def Tensor.ensembleRepeat (n : Nat) (x : Tensor) : Tensor :=
  ⟨n :: x.shape, (List.replicate n x.data).flatten⟩

/-- Well-formedness: the flat data has exactly one entry per index tuple. -/
def Tensor.wf (x : Tensor) : Prop := x.data.length = x.shape.prod

/-- Elementwise `x += y` (torch in-place add): raises on shape mismatch,
otherwise returns the elementwise sum with the shape of `x`. -/
def tensorAdd (x y : Tensor) : Except Err Tensor :=
  if x.shape = y.shape then .ok ⟨x.shape, List.zipWith (· + ·) x.data y.data⟩
  else .error "RuntimeError: shape mismatch"

/-- The all-zero noise field of the same shape as `x`. -/
def zerosLike (x : Tensor) : Tensor := ⟨x.shape, List.replicate x.data.length 0⟩

/-- `np.arange n` as integer coordinate values `0, 1, ..., n-1`. -/
def intRange (n : Nat) : List Int := (List.range n).map Int.ofNat

/-- One externally observable event of a run: the data fetch, the single
schema declaration on the sink (`io.add_array`), or a write to the sink. -/
inductive RunEvent where
  | fetchData (time : List Int) (lead_time : CoordVal) (vars : CoordVal)
  | addArray (total_coords : CoordSystem) (var_names : CoordVal)
  | write (x : Tensor) (coords : CoordSystem)
deriving DecidableEq, Repr

/-- Is the event a write to the sink? -/
def RunEvent.isWrite : RunEvent → Bool
  | .write _ _ => true
  | _ => false

/-- Is the event a schema declaration on the sink? -/
def RunEvent.isAddArray : RunEvent → Bool
  | .addArray _ _ => true
  | _ => false

/-- The write events of a trace, in order. -/
def writeEvents (evs : List RunEvent) : List RunEvent := evs.filter RunEvent.isWrite

/-- The schema declaration events of a trace, in order. -/
def addArrayEvents (evs : List RunEvent) : List RunEvent := evs.filter RunEvent.isAddArray

/-- Modelled from the spec (section 6, Sink): the IO backend holds the
declared arrays and the written (tensor, coords) pairs; `ident` stands for
the object identity of the backend, which no method ever changes. -/
structure IOBackend where
  ident : Nat
  arrays : List (CoordSystem × CoordVal)
  writes : List (Tensor × CoordSystem)
deriving DecidableEq, Repr

/-- `io.add_array(total_coords, var_names)`: declare the output schema. -/
def IOBackend.add_array (io : IOBackend) (tc : CoordSystem) (vn : CoordVal) : IOBackend :=
  { io with arrays := io.arrays ++ [(tc, vn)] }

/-- `io.write(x, coords)`: append one incremental write. -/
def IOBackend.write (io : IOBackend) (x : Tensor) (c : CoordSystem) : IOBackend :=
  { io with writes := io.writes ++ [(x, c)] }

/-- Modelled from the spec (section 6, Data source): resolves
`(time, lead_time, variable)` to an initial-condition tensor and coords. -/
structure DataSource where
  fetch : List Int → CoordVal → CoordVal → Except Err (Tensor × CoordSystem)

/-- `fetch_data(source, time, lead_time, variable)` of the library,
modelled from the spec: delegates to the data source. -/
def fetch_data (source : DataSource) (time : List Int) (lead_time : CoordVal)
    (vars : CoordVal) : Except Err (Tensor × CoordSystem) :=
  source.fetch time lead_time vars

/-- Modelled from the spec (section 6, Prognostic model): exposes
`input_coords` and `output_coords` mappings (with at least `lead_time` and
`variable` keys) and an iterator factory.  The lazy, logically infinite
sequence of `(state, coords)` pairs is embedded as the function from the
yield index `k` to the `k`-th yielded pair (or the exception raised there). -/
structure PrognosticModel where
  input_coords : CoordSystem
  output_coords : CoordSystem
  create_iterator : Tensor → CoordSystem → Nat → Except Err (Tensor × CoordSystem)

/-- Modelled from the spec (section 6, Perturbation method): a callable
`(tensor, coords) -> noise tensor`, consuming the ambient random state
(threaded as the first, `seed`, argument); may raise. -/
abbrev PerturbationMethod := Nat → Tensor → CoordSystem → Except Err Tensor

/-- Modelled from the spec (section 4.1 step 5, `map_coords` of the
library): aligns tensor and coords to the prognostic's expected input
layout; may raise a coordinate alignment error. -/
abbrev MapCoords := Tensor → CoordSystem → CoordSystem → Except Err (Tensor × CoordSystem)

/-- Parse one timestamp string: a non-empty digit string denotes its numeric
value, anything else is unparsable (a simple stand-in for datetime parsing). -/
def parse_time (s : String) : Option Int :=
  if s.data.isEmpty then none
  else if s.data.all Char.isDigit then
    some (s.data.foldl (fun acc c => 10 * acc + ((c.toNat : Int) - 48)) 0)
  else none

/-- Parse every timestamp of the list, or fail on the first unparsable one. -/
def parse_times (l : List String) : Option (List Int) :=
  match l with
  | [] => some []
  | s :: rest =>
    match parse_time s, parse_times rest with
    | some t, some ts => some (t :: ts)
    | _, _ => none

/-- Modelled from the spec: `to_time_array` resolves the time list into a
canonical timestamp array; the run fails if `time` is empty or unparsable. -/
def to_time_array (time : List String) : Except Err (List Int) :=
  if time.isEmpty then .error "ValueError: empty time list"
  else
    match parse_times time with
    | some ts => .ok ts
    | none => .error "ValueError: unparsable time"

/-- Modelled from the spec (section 4.1 step 8, `extract_coords` of the
library): extract the subset of the state matching the declared output
schema — the tensor unchanged, the variable names dropped from the coords
(they were passed separately at schema declaration). -/
def extract_coords (x : Tensor) (coords : CoordSystem) : Tensor × CoordSystem :=
  match dictPop coords "variable" with
  | .ok (_, rest) => (x, rest)
  | .error _ => (x, coords)

/-- `np.asarray([output_lead_time * i for i in range(nsteps + 1)]).flatten()`:
each entry of the native output lead-time array scaled by the step index,
concatenated; raises if the lead-time values are not numeric.  Matches
Python in that `range(nsteps + 1)` is empty when `nsteps + 1 <= 0`. -/
def scale_lead_times (v : CoordVal) (nsteps : Int) : Except Err (List Int) :=
  match v with
  | .strs _ => .error "TypeError: lead_time values are not numeric"
  | .ints l =>
    .ok ((List.range (nsteps + 1).toNat).map fun (i : Nat) => l.map fun t => t * (i : Int)).flatten

/-- The setup phase of `run_ensemble`, translated line by line from the
source: resolve the time list, fetch the initial condition, expand it
across the ensemble dimension, compute and declare the output schema, align
coordinates, perturb.  Returns the events so far and either the raised
error or the backend after `add_array` together with the perturbed state. -/
def run_setup (time : List String) (nsteps : Int) (nensemble : Nat)
    (prognostic : PrognosticModel) (perturbation_method : PerturbationMethod)
    (data : DataSource) (io : IOBackend) (mc : MapCoords) (seed : Nat) :
    List RunEvent × Except Err (IOBackend × Tensor × CoordSystem) :=
  match to_time_array time with
  | .error e => ([], .error e)
  | .ok ts =>
  match dictGet prognostic.input_coords "lead_time" with
  | .error e => ([], .error e)
  | .ok ilt =>
  match dictGet prognostic.input_coords "variable" with
  | .error e => ([], .error e)
  | .ok ivar =>
  match fetch_data data ts ilt ivar with
  | .error e => ([RunEvent.fetchData ts ilt ivar], .error e)
  | .ok (x0, coords0) =>
  -- x = x.unsqueeze(0).repeat(nensemble, *([1] * x.ndim)) is x0.ensembleRepeat nensemble;
  -- coords = {"ensemble": np.arange(nensemble)} | coords is the dictUnion below;
  -- total_coords = coords.copy(), then total_coords["lead_time"] is assigned the
  -- flattened scaled lead-time axis, then var_names = total_coords.pop("variable")
  match dictGet prognostic.output_coords "lead_time" with
  | .error e => ([RunEvent.fetchData ts ilt ivar], .error e)
  | .ok olt =>
  match scale_lead_times olt nsteps with
  | .error e => ([RunEvent.fetchData ts ilt ivar], .error e)
  | .ok lt =>
  match dictPop (dictSet (dictUnion [("ensemble", CoordVal.ints (intRange nensemble))] coords0)
      "lead_time" (CoordVal.ints lt)) "variable" with
  | .error e => ([RunEvent.fetchData ts ilt ivar], .error e)
  | .ok (var_names, total_coords2) =>
  match mc (x0.ensembleRepeat nensemble)
      (dictUnion [("ensemble", CoordVal.ints (intRange nensemble))] coords0)
      prognostic.input_coords with
  | .error e => ([RunEvent.fetchData ts ilt ivar, RunEvent.addArray total_coords2 var_names],
                 .error e)
  | .ok (x2, coords2) =>
  match perturbation_method seed x2 coords2 with
  | .error e => ([RunEvent.fetchData ts ilt ivar, RunEvent.addArray total_coords2 var_names],
                 .error e)
  | .ok dx =>
  match tensorAdd x2 dx with
  | .error e => ([RunEvent.fetchData ts ilt ivar, RunEvent.addArray total_coords2 var_names],
                 .error e)
  | .ok x3 => ([RunEvent.fetchData ts ilt ivar, RunEvent.addArray total_coords2 var_names],
               .ok (io.add_array total_coords2 var_names, x3, coords2))

/-- The inference loop of `run_ensemble`:
`for step, (x, coords) in enumerate(model): io.write(*extract_coords(x, coords));
if step == nsteps: break`.  `fuel` bounds the number of iterations embedded;
a second component of `none` means the loop is still running after `fuel`
iterations. -/
def inference_loop (model : Nat → Except Err (Tensor × CoordSystem)) (nsteps : Int)
    (step : Nat) (io : IOBackend) (fuel : Nat) :
    List RunEvent × Option (Except Err IOBackend) :=
  match fuel with
  | 0 => ([], none)
  | fuel + 1 =>
    match model step with
    | .error e => ([], some (.error e))
    | .ok (x, coords) =>
      if (step : Int) = nsteps then
        ([RunEvent.write (extract_coords x coords).1 (extract_coords x coords).2],
         some (.ok (io.write (extract_coords x coords).1 (extract_coords x coords).2)))
      else
        (RunEvent.write (extract_coords x coords).1 (extract_coords x coords).2 ::
          (inference_loop model nsteps (step + 1)
            (io.write (extract_coords x coords).1 (extract_coords x coords).2) fuel).1,
         (inference_loop model nsteps (step + 1)
           (io.write (extract_coords x coords).1 (extract_coords x coords).2) fuel).2)

/-- `run_ensemble`, translated from the source: setup phase, then the
iterator is created from the perturbed state and the inference loop runs.
The result is the trace of events together with `none` (loop still running
after `fuel` iterations), `some (.error e)` (the run raised `e`), or
`some (.ok io)` (the run returned the backend `io`). -/
def run_ensemble (time : List String) (nsteps : Int) (nensemble : Nat)
    (prognostic : PrognosticModel) (perturbation_method : PerturbationMethod)
    (data : DataSource) (io : IOBackend) (mc : MapCoords) (seed : Nat) (fuel : Nat) :
    List RunEvent × Option (Except Err IOBackend) :=
  match run_setup time nsteps nensemble prognostic perturbation_method data io mc seed with
  | (evs, .error e) => (evs, some (.error e))
  | (evs, .ok (io2, x3, coords2)) =>
    (evs ++ (inference_loop (prognostic.create_iterator x3 coords2) nsteps 0 io2 fuel).1,
     (inference_loop (prognostic.create_iterator x3 coords2) nsteps 0 io2 fuel).2)

/-- The output coordinate schema as the spec describes it (section 4.1 step 4):
the fetch coordinates, extended with an ensemble dimension (prepended, with
coordinate values `0 .. nensemble - 1`) and a lead-time axis of length
`nsteps + 1` whose `i`-th entry is `i` times the prognostic's native output
lead-time step `d`, with the variable names removed from the schema.  This
definition follows the spec's words; the theorems below compare it with the
schema the code actually declares. -/
def spec_output_schema (c0 : CoordSystem) (nensemble : Nat) (d : Int) (nsteps : Int) :
    CoordSystem :=
  dictErase (dictSet (("ensemble", CoordVal.ints (intRange nensemble)) :: c0) "lead_time"
    (CoordVal.ints ((List.range (nsteps + 1).toNat).map fun (i : Nat) => (i : Int) * d)))
    "variable"

/-! ### Sample collaborators (concrete instances used by the witnesses) -/

/-- A sample fetched initial-condition tensor. -/
def sampleX0 : Tensor := ⟨[1, 2], [5, 7]⟩

/-- A sample fetch coordinate system. -/
def sampleC0 : CoordSystem :=
  [("time", .ints [0]), ("lead_time", .ints [0]), ("variable", .strs ["a"]),
   ("lat", .ints [0, 1])]

/-- A sample prognostic model: each yield keeps the state and advances the
lead time by the native 6-hour step. -/
def sampleProg : PrognosticModel where
  input_coords := [("lead_time", .ints [0]), ("variable", .strs ["a"])]
  output_coords := [("lead_time", .ints [6])]
  create_iterator := fun x c k => .ok (x, dictSet c "lead_time" (.ints [6 * (k : Int)]))

/-- A sample data source that always returns the sample initial condition. -/
def sampleData : DataSource := ⟨fun _ _ _ => .ok (sampleX0, sampleC0)⟩

/-- A sample perturbation method returning the all-zero noise field. -/
def samplePM : PerturbationMethod := fun _ x _ => .ok (zerosLike x)

/-- A sample coordinate aligner that performs no change. -/
def sampleMC : MapCoords := fun x c _ => .ok (x, c)

/-- A sample IO backend, initially empty, with object identity 7. -/
def sampleSink : IOBackend := ⟨7, [], []⟩

/-- A data source that always fails (variables unavailable). -/
def failingData : DataSource := ⟨fun _ _ _ => .error "unavailable variable"⟩

/-- The backend inside a successful outcome, or the fallback. -/
def okBackend (r : Option (Except Err IOBackend)) (dflt : IOBackend) : IOBackend :=
  match r with
  | some (.ok z) => z
  | _ => dflt

/-- The payload of a successful setup result, or the fallback. -/
def setupTriple (r : Except Err (IOBackend × Tensor × CoordSystem))
    (dflt : IOBackend × Tensor × CoordSystem) : IOBackend × Tensor × CoordSystem :=
  match r with
  | .ok z => z
  | _ => dflt

/-! ### Dictionary lemmas -/

theorem dictLookup_eq_none_iff (d : CoordSystem) (k : String) :
    dictLookup d k = none ↔ ∀ p ∈ d, p.1 ≠ k := by
  induction d with
  | nil => simp [dictLookup]
  | cons hd tl ih =>
    by_cases h : hd.1 = k
    · simp [dictLookup, h]
    · simp only [dictLookup, h, if_neg h, List.mem_cons]
      constructor
      · intro hl p hp
        rcases hp with hp | hp
        · subst hp; exact h
        · exact (ih.mp hl) p hp
      · intro hall
        exact ih.mpr fun p hp => hall p (Or.inr hp)

theorem dictUnion_singleton_of_notMem (k : String) (v : CoordVal) (d : CoordSystem)
    (h : dictLookup d k = none) :
    dictUnion [(k, v)] d = (k, v) :: d := by
  unfold dictUnion
  have hall := (dictLookup_eq_none_iff d k).mp h
  simp only [List.map_cons, List.map_nil, h, List.singleton_append, List.cons.injEq, true_and]
  have : ∀ p ∈ d, (dictLookup [(k, v)] p.1).isNone = true := by
    intro p hp
    have : ¬ (k = p.1) := fun hk => hall p hp hk.symm
    simp [dictLookup, this]
  exact List.filter_eq_self.mpr this

theorem dictSet_cons_ne (k1 k : String) (v1 v : CoordVal) (d : CoordSystem) (h : k1 ≠ k) :
    dictSet ((k1, v1) :: d) k v = (k1, v1) :: dictSet d k v := by
  simp [dictSet, h]

theorem dictLookup_set_ne (d : CoordSystem) (k k2 : String) (v : CoordVal) (h : k2 ≠ k) :
    dictLookup (dictSet d k v) k2 = dictLookup d k2 := by
  have hk : ¬ (k = k2) := fun hk2 => h hk2.symm
  induction d with
  | nil => simp [dictSet, dictLookup, hk]
  | cons hd tl ih =>
    obtain ⟨k1, v1⟩ := hd
    by_cases h1 : k1 = k
    · subst h1
      simp [dictSet, dictLookup, hk]
    · by_cases h2 : k1 = k2
      · simp [dictSet, dictLookup, h1, h2, h]
      · simp [dictSet, dictLookup, h1, h2, ih]

theorem dictErase_cons_ne (k1 k : String) (v1 : CoordVal) (d : CoordSystem) (h : k1 ≠ k) :
    dictErase ((k1, v1) :: d) k = (k1, v1) :: dictErase d k := by
  simp [dictErase, h]

theorem dictLookup_erase_ne (d : CoordSystem) (k k2 : String) (h : k ≠ k2) :
    dictLookup (dictErase d k2) k = dictLookup d k := by
  induction d with
  | nil => simp [dictErase]
  | cons hd tl ih =>
    obtain ⟨k1, v1⟩ := hd
    by_cases h1 : k1 = k2
    · subst h1
      have hne : ¬ (k1 = k) := fun hk => h hk.symm
      simp [dictErase, dictLookup, hne]
    · by_cases h2 : k1 = k
      · simp [dictErase, dictLookup, h1, h2, h]
      · simp [dictErase, dictLookup, h1, h2, ih]

theorem dictPop_of_lookup (d : CoordSystem) (k : String) (v : CoordVal)
    (h : dictLookup d k = some v) :
    dictPop d k = .ok (v, dictErase d k) := by
  induction d with
  | nil => simp [dictLookup] at h
  | cons hd tl ih =>
    obtain ⟨k1, v1⟩ := hd
    by_cases h1 : k1 = k
    · simp only [dictLookup, if_pos h1, Option.some.injEq] at h
      subst h
      simp [dictPop, dictErase, h1]
    · simp only [dictLookup, if_neg h1] at h
      simp [dictPop, dictErase, h1, ih h]

theorem dictPop_ok_elim (d : CoordSystem) (k : String) (v : CoordVal) (rest : CoordSystem)
    (h : dictPop d k = .ok (v, rest)) :
    dictLookup d k = some v ∧ rest = dictErase d k := by
  induction d generalizing rest with
  | nil => simp [dictPop] at h
  | cons hd tl ih =>
    obtain ⟨k1, v1⟩ := hd
    by_cases h1 : k1 = k
    · simp only [dictPop, if_pos h1, Except.ok.injEq, Prod.mk.injEq] at h
      simp [dictLookup, dictErase, h1, h.1, h.2]
    · simp only [dictPop, if_neg h1] at h
      cases h2 : dictPop tl k with
      | error e =>
        rw [h2] at h
        simp at h
      | ok p =>
        obtain ⟨v2, rest2⟩ := p
        rw [h2] at h
        simp only [Except.ok.injEq, Prod.mk.injEq] at h
        obtain ⟨hv, hrest⟩ := h
        subst hv
        obtain ⟨hl, he⟩ := ih rest2 h2
        subst he
        simp [dictLookup, dictErase, h1, hl, hrest.symm]

theorem extract_coords_fst (x : Tensor) (c : CoordSystem) : (extract_coords x c).1 = x := by
  unfold extract_coords
  cases h : dictPop c "variable" with
  | error e => rfl
  | ok p => rfl

theorem extract_coords_lookup (x : Tensor) (c : CoordSystem) (k : String) (h : k ≠ "variable") :
    dictLookup (extract_coords x c).2 k = dictLookup c k := by
  unfold extract_coords
  cases hp : dictPop c "variable" with
  | error e => rfl
  | ok p =>
    cases p with
    | mk v rest =>
      obtain ⟨_, he⟩ := dictPop_ok_elim c "variable" v rest hp
      subst he
      exact dictLookup_erase_ne c k "variable" h

/-! ### Tensor lemmas -/

theorem flatten_replicate_drop (l : List Int) (n i : Nat) (hi : i ≤ n) :
    (List.replicate n l).flatten.drop (i * l.length) = (List.replicate (n - i) l).flatten := by
  induction i generalizing n with
  | zero => simp
  | succ i ih =>
    obtain ⟨m, rfl⟩ : ∃ m, n = m + 1 := ⟨n - 1, by omega⟩
    rw [List.replicate_succ, List.flatten_cons]
    have h1 : (i + 1) * l.length = l.length + i * l.length := by ring
    rw [h1, List.drop_append, ih m (by omega)]
    have h2 : m + 1 - (i + 1) = m - i := by omega
    rw [h2]

theorem memberSlice_ensembleRepeat (x : Tensor) (n i : Nat) (hx : x.wf) (hi : i < n) :
    (x.ensembleRepeat n).memberSlice i = x.data := by
  have hms : (x.ensembleRepeat n).memberSize = x.data.length := by
    simp only [Tensor.ensembleRepeat, Tensor.memberSize]
    simpa using hx.symm
  unfold Tensor.memberSlice
  rw [hms]
  show ((List.replicate n x.data).flatten.drop (i * x.data.length)).take x.data.length = x.data
  rw [flatten_replicate_drop x.data n i (le_of_lt hi)]
  obtain ⟨m, hm⟩ : ∃ m, n - i = m + 1 := ⟨n - i - 1, by omega⟩
  rw [hm, List.replicate_succ, List.flatten_cons, List.take_left]

theorem ensembleRepeat_shape (x : Tensor) (n : Nat) :
    (x.ensembleRepeat n).shape = n :: x.shape := rfl

theorem tensorAdd_ok_shape (x y z : Tensor) (h : tensorAdd x y = .ok z) :
    z.shape = x.shape := by
  unfold tensorAdd at h
  by_cases hs : x.shape = y.shape
  · rw [if_pos hs] at h
    injection h with h
    rw [← h]
  · rw [if_neg hs] at h
    cases h

/-! ### Inference loop lemmas -/

theorem inference_loop_succ_of_err (m : Nat → Except Err (Tensor × CoordSystem))
    (nsteps : Int) (step : Nat) (io : IOBackend) (fuel : Nat) (e : Err)
    (hm : m step = .error e) :
    inference_loop m nsteps step io (fuel + 1) = ([], some (.error e)) := by
  rw [inference_loop]
  simp only [hm]

theorem inference_loop_succ_of_ok (m : Nat → Except Err (Tensor × CoordSystem))
    (nsteps : Int) (step : Nat) (io : IOBackend) (fuel : Nat) (x : Tensor)
    (c : CoordSystem) (hm : m step = .ok (x, c)) :
    inference_loop m nsteps step io (fuel + 1) =
      if (step : Int) = nsteps then
        ([RunEvent.write (extract_coords x c).1 (extract_coords x c).2],
         some (.ok (io.write (extract_coords x c).1 (extract_coords x c).2)))
      else
        (RunEvent.write (extract_coords x c).1 (extract_coords x c).2 ::
          (inference_loop m nsteps (step + 1)
            (io.write (extract_coords x c).1 (extract_coords x c).2) fuel).1,
         (inference_loop m nsteps (step + 1)
           (io.write (extract_coords x c).1 (extract_coords x c).2) fuel).2) := by
  rw [inference_loop]
  simp only [hm]

theorem inference_loop_events_write (m : Nat → Except Err (Tensor × CoordSystem))
    (nsteps : Int) (fuel : Nat) :
    ∀ step io, ∀ e ∈ (inference_loop m nsteps step io fuel).1, e.isWrite = true := by
  induction fuel with
  | zero =>
    intro step io e he
    simp [inference_loop] at he
  | succ fuel ih =>
    intro step io e he
    cases hm : m step with
    | error e2 =>
      rw [inference_loop_succ_of_err m nsteps step io fuel e2 hm] at he
      simp at he
    | ok p =>
      obtain ⟨x, c⟩ := p
      rw [inference_loop_succ_of_ok m nsteps step io fuel x c hm] at he
      by_cases hs : (step : Int) = nsteps
      · rw [if_pos hs] at he
        simp only [List.mem_singleton] at he
        subst he
        rfl
      · rw [if_neg hs] at he
        simp only [List.mem_cons] at he
        rcases he with he | he
        · subst he
          rfl
        · exact ih (step + 1) _ e he

theorem inference_loop_ok_elim (m : Nat → Except Err (Tensor × CoordSystem))
    (nsteps : Int) (fuel : Nat) :
    ∀ step io evs io2,
      inference_loop m nsteps step io fuel = (evs, some (.ok io2)) →
      (step : Int) ≤ nsteps ∧
      evs.length = (nsteps - step).toNat + 1 ∧
      (∀ i, i < evs.length → ∃ x c, m (step + i) = .ok (x, c) ∧
        evs[i]? = some (RunEvent.write (extract_coords x c).1 (extract_coords x c).2)) ∧
      io2.ident = io.ident := by
  induction fuel with
  | zero =>
    intro step io evs io2 h
    simp [inference_loop] at h
  | succ fuel ih =>
    intro step io evs io2 h
    cases hm : m step with
    | error e2 =>
      rw [inference_loop_succ_of_err m nsteps step io fuel e2 hm] at h
      simp at h
    | ok p =>
      obtain ⟨x, c⟩ := p
      rw [inference_loop_succ_of_ok m nsteps step io fuel x c hm] at h
      by_cases hs : (step : Int) = nsteps
      · rw [if_pos hs] at h
        injection h with h1 h2
        injection h2 with h2
        injection h2 with h2
        refine ⟨le_of_eq hs, ?_, ?_, ?_⟩
        · rw [← h1]
          simp [← hs]
        · intro i hi
          rw [← h1] at hi ⊢
          simp only [List.length_singleton] at hi
          interval_cases i
          exact ⟨x, c, by simpa using hm, rfl⟩
        · rw [← h2]
          rfl
      · rw [if_neg hs] at h
        injection h with h1 h2
        obtain ⟨hle, hlen, hidx, hident⟩ :=
          ih (step + 1) (io.write (extract_coords x c).1 (extract_coords x c).2)
            (inference_loop m nsteps (step + 1)
              (io.write (extract_coords x c).1 (extract_coords x c).2) fuel).1 io2
            (by rw [← h2])
        have hstep : (step : Int) < nsteps := by
          have : ((step : Int) + 1) ≤ nsteps := by exact_mod_cast hle
          omega
        refine ⟨le_of_lt hstep, ?_, ?_, hident⟩
        · rw [← h1]
          simp only [List.length_cons, hlen]
          omega
        · intro i hi
          rw [← h1] at hi ⊢
          cases i with
          | zero => exact ⟨x, c, by simpa using hm, by simp⟩
          | succ i =>
            simp only [List.length_cons] at hi
            obtain ⟨x2, c2, hm2, hget⟩ := hidx i (by omega)
            refine ⟨x2, c2, ?_, ?_⟩
            · have : step + 1 + i = step + (i + 1) := by omega
              rw [← this]
              exact hm2
            · simpa using hget

theorem inference_loop_total (m : Nat → Except Err (Tensor × CoordSystem))
    (nsteps : Int) (hm : ∀ k, ∃ y, m k = .ok y) (fuel : Nat) :
    ∀ (step : Nat) (io : IOBackend), (step : Int) ≤ nsteps → (nsteps - step).toNat < fuel →
      ∃ evs io2, inference_loop m nsteps step io fuel = (evs, some (.ok io2)) := by
  induction fuel with
  | zero =>
    intro step io hstep hfuel
    omega
  | succ fuel ih =>
    intro step io hstep hfuel
    obtain ⟨⟨x, c⟩, hmk⟩ := hm step
    by_cases hs : (step : Int) = nsteps
    · refine ⟨[RunEvent.write (extract_coords x c).1 (extract_coords x c).2],
        io.write (extract_coords x c).1 (extract_coords x c).2, ?_⟩
      rw [inference_loop_succ_of_ok m nsteps step io fuel x c hmk, if_pos hs]
    · have hlt : (step : Int) < nsteps := lt_of_le_of_ne hstep hs
      obtain ⟨evs, io2, hrec⟩ :=
        ih (step + 1) (io.write (extract_coords x c).1 (extract_coords x c).2)
          (by push_cast; omega) (by omega)
      refine ⟨RunEvent.write (extract_coords x c).1 (extract_coords x c).2 :: evs, io2, ?_⟩
      rw [inference_loop_succ_of_ok m nsteps step io fuel x c hmk, if_neg hs, hrec]

theorem inference_loop_nonterminating (m : Nat → Except Err (Tensor × CoordSystem))
    (nsteps : Int) (hn : nsteps < 0) (hm : ∀ k, ∃ y, m k = .ok y) (fuel : Nat) :
    ∀ step io, (inference_loop m nsteps step io fuel).2 = none := by
  induction fuel with
  | zero =>
    intro step io
    rfl
  | succ fuel ih =>
    intro step io
    obtain ⟨⟨x, c⟩, hmk⟩ := hm step
    have hs : ¬ ((step : Int) = nsteps) := by omega
    rw [inference_loop_succ_of_ok m nsteps step io fuel x c hmk, if_neg hs]
    exact ih (step + 1) _

theorem inference_loop_write_shape (m : Nat → Except Err (Tensor × CoordSystem))
    (nsteps : Int) (nn : Nat)
    (hm : ∀ k x c, m k = .ok (x, c) → x.shape.head? = some nn) (fuel : Nat) :
    ∀ step io x c, RunEvent.write x c ∈ (inference_loop m nsteps step io fuel).1 →
      x.shape.head? = some nn := by
  induction fuel with
  | zero =>
    intro step io x c hmem
    simp [inference_loop] at hmem
  | succ fuel ih =>
    intro step io x c hmem
    cases hmk : m step with
    | error e2 =>
      rw [inference_loop_succ_of_err m nsteps step io fuel e2 hmk] at hmem
      simp at hmem
    | ok p =>
      obtain ⟨x0, c0⟩ := p
      rw [inference_loop_succ_of_ok m nsteps step io fuel x0 c0 hmk] at hmem
      have hx0 : (extract_coords x0 c0).1 = x0 := extract_coords_fst x0 c0
      by_cases hs : (step : Int) = nsteps
      · rw [if_pos hs] at hmem
        simp only [List.mem_singleton, RunEvent.write.injEq] at hmem
        rw [hmem.1, hx0]
        exact hm step x0 c0 hmk
      · rw [if_neg hs] at hmem
        simp only [List.mem_cons, RunEvent.write.injEq] at hmem
        rcases hmem with ⟨hx, _⟩ | hmem
        · rw [hx, hx0]
          exact hm step x0 c0 hmk
        · exact ih (step + 1) _ x c hmem

theorem inference_loop_err_elim (m : Nat → Except Err (Tensor × CoordSystem))
    (nsteps : Int) (e : Err) (k : Nat) :
    ∀ fuel step io,
      (∀ j, j < k → ∃ x c, m (step + j) = .ok (x, c)) →
      (∀ j, j < k → ¬ (((step + j : Nat) : Int) = nsteps)) →
      m (step + k) = .error e → k < fuel →
      ∃ evs, inference_loop m nsteps step io fuel = (evs, some (.error e)) ∧
        evs.length = k := by
  induction k with
  | zero =>
    intro fuel step io _ _ he hfuel
    obtain ⟨f2, rfl⟩ : ∃ f2, fuel = f2 + 1 := ⟨fuel - 1, by omega⟩
    refine ⟨[], ?_, rfl⟩
    simp only [Nat.add_zero] at he
    exact inference_loop_succ_of_err m nsteps step io f2 e he
  | succ k ih =>
    intro fuel step io hok hne he hfuel
    obtain ⟨f2, rfl⟩ : ∃ f2, fuel = f2 + 1 := ⟨fuel - 1, by omega⟩
    obtain ⟨x, c, hm0⟩ := hok 0 (by omega)
    simp only [Nat.add_zero] at hm0
    have hs : ¬ ((step : Int) = nsteps) := by
      have := hne 0 (by omega)
      simpa using this
    obtain ⟨evs, hrec, hlen⟩ :=
      ih f2 (step + 1) (io.write (extract_coords x c).1 (extract_coords x c).2)
        (fun j hj => by
          have := hok (j + 1) (by omega)
          simpa [Nat.add_assoc, Nat.add_comm 1 j] using this)
        (fun j hj => by
          have := hne (j + 1) (by omega)
          simpa [Nat.add_assoc, Nat.add_comm 1 j] using this)
        (by
          have : step + 1 + k = step + (k + 1) := by omega
          rw [this]
          exact he)
        (by omega)
    refine ⟨RunEvent.write (extract_coords x c).1 (extract_coords x c).2 :: evs, ?_, ?_⟩
    · rw [inference_loop_succ_of_ok m nsteps step io f2 x c hm0, if_neg hs, hrec]
    · simp [hlen]

/-! ### Setup phase lemmas -/

theorem run_setup_ok_elim
    (time : List String) (nsteps : Int) (nensemble : Nat) (prognostic : PrognosticModel)
    (pm : PerturbationMethod) (data : DataSource) (io : IOBackend) (mc : MapCoords)
    (seed : Nat) (evs : List RunEvent) (io2 : IOBackend) (x3 : Tensor) (c2 : CoordSystem)
    (h : run_setup time nsteps nensemble prognostic pm data io mc seed =
      (evs, .ok (io2, x3, c2))) :
    ∃ ts ilt ivar x0 c0 olt lt vn tc x2 dx,
      to_time_array time = .ok ts ∧
      dictGet prognostic.input_coords "lead_time" = .ok ilt ∧
      dictGet prognostic.input_coords "variable" = .ok ivar ∧
      fetch_data data ts ilt ivar = .ok (x0, c0) ∧
      dictGet prognostic.output_coords "lead_time" = .ok olt ∧
      scale_lead_times olt nsteps = .ok lt ∧
      dictPop (dictSet (dictUnion [("ensemble", CoordVal.ints (intRange nensemble))] c0)
        "lead_time" (CoordVal.ints lt)) "variable" = .ok (vn, tc) ∧
      mc (x0.ensembleRepeat nensemble)
        (dictUnion [("ensemble", CoordVal.ints (intRange nensemble))] c0)
        prognostic.input_coords = .ok (x2, c2) ∧
      pm seed x2 c2 = .ok dx ∧
      tensorAdd x2 dx = .ok x3 ∧
      evs = [RunEvent.fetchData ts ilt ivar, RunEvent.addArray tc vn] ∧
      io2 = io.add_array tc vn := by
  unfold run_setup at h
  cases hts : to_time_array time with
  | error e => simp [hts] at h
  | ok ts =>
  simp only [hts] at h
  cases hilt : dictGet prognostic.input_coords "lead_time" with
  | error e => simp [hilt] at h
  | ok ilt =>
  simp only [hilt] at h
  cases hivar : dictGet prognostic.input_coords "variable" with
  | error e => simp [hivar] at h
  | ok ivar =>
  simp only [hivar] at h
  cases hfetch : fetch_data data ts ilt ivar with
  | error e => simp [hfetch] at h
  | ok p =>
  obtain ⟨x0, c0⟩ := p
  simp only [hfetch] at h
  cases holt : dictGet prognostic.output_coords "lead_time" with
  | error e => simp [holt] at h
  | ok olt =>
  simp only [holt] at h
  cases hlt : scale_lead_times olt nsteps with
  | error e => simp [hlt] at h
  | ok lt =>
  simp only [hlt] at h
  cases hpop : dictPop (dictSet (dictUnion [("ensemble", CoordVal.ints (intRange nensemble))] c0)
      "lead_time" (CoordVal.ints lt)) "variable" with
  | error e => simp [hpop] at h
  | ok q =>
  obtain ⟨vn, tc⟩ := q
  simp only [hpop] at h
  cases hmc : mc (x0.ensembleRepeat nensemble)
      (dictUnion [("ensemble", CoordVal.ints (intRange nensemble))] c0)
      prognostic.input_coords with
  | error e => simp [hmc] at h
  | ok r =>
  obtain ⟨x2, cc2⟩ := r
  simp only [hmc] at h
  cases hpm : pm seed x2 cc2 with
  | error e => simp [hpm] at h
  | ok dx =>
  simp only [hpm] at h
  cases hadd : tensorAdd x2 dx with
  | error e => simp [hadd] at h
  | ok xx3 =>
  simp only [hadd, Prod.mk.injEq, Except.ok.injEq] at h
  obtain ⟨hevs, hio, hx3, hc2⟩ := h
  subst hc2
  exact ⟨ts, ilt, ivar, x0, c0, olt, lt, vn, tc, x2, dx, rfl, rfl, rfl, hfetch, rfl,
    hlt, hpop, hmc, hpm, by rw [hx3] at hadd; exact hadd, hevs.symm, hio.symm⟩

theorem flatten_map_singleton {α β : Type} (f : α → β) (l : List α) :
    (l.map fun a => [f a]).flatten = l.map f := by
  induction l with
  | nil => rfl
  | cons hd tl ih => simp [ih]

theorem scale_lead_times_singleton (d : Int) (nsteps : Int) :
    scale_lead_times (CoordVal.ints [d]) nsteps =
      .ok ((List.range (nsteps + 1).toNat).map fun (i : Nat) => (i : Int) * d) := by
  simp only [scale_lead_times]
  have h1 : ((List.range (nsteps + 1).toNat).map fun (i : Nat) =>
        [d].map fun t => t * (i : Int)) =
      (List.range (nsteps + 1).toNat).map fun (i : Nat) => [(i : Int) * d] := by
    simp [mul_comm]
  rw [h1, flatten_map_singleton]

theorem run_setup_events_cases (time : List String) (nsteps : Int) (nensemble : Nat)
    (prognostic : PrognosticModel) (pm : PerturbationMethod) (data : DataSource)
    (io : IOBackend) (mc : MapCoords) (seed : Nat) (evs : List RunEvent)
    (r : Except Err (IOBackend × Tensor × CoordSystem))
    (h : run_setup time nsteps nensemble prognostic pm data io mc seed = (evs, r)) :
    evs = [] ∨
    (∃ t l v, evs = [RunEvent.fetchData t l v]) ∨
    (∃ t l v tc vn, evs = [RunEvent.fetchData t l v, RunEvent.addArray tc vn]) := by
  unfold run_setup at h
  cases hts : to_time_array time with
  | error e =>
    simp only [hts, Prod.mk.injEq] at h
    exact Or.inl h.1.symm
  | ok ts =>
  simp only [hts] at h
  cases hilt : dictGet prognostic.input_coords "lead_time" with
  | error e =>
    simp only [hilt, Prod.mk.injEq] at h
    exact Or.inl h.1.symm
  | ok ilt =>
  simp only [hilt] at h
  cases hivar : dictGet prognostic.input_coords "variable" with
  | error e =>
    simp only [hivar, Prod.mk.injEq] at h
    exact Or.inl h.1.symm
  | ok ivar =>
  simp only [hivar] at h
  cases hfetch : fetch_data data ts ilt ivar with
  | error e =>
    simp only [hfetch, Prod.mk.injEq] at h
    exact Or.inr (Or.inl ⟨ts, ilt, ivar, h.1.symm⟩)
  | ok p =>
  obtain ⟨x0, c0⟩ := p
  simp only [hfetch] at h
  cases holt : dictGet prognostic.output_coords "lead_time" with
  | error e =>
    simp only [holt, Prod.mk.injEq] at h
    exact Or.inr (Or.inl ⟨ts, ilt, ivar, h.1.symm⟩)
  | ok olt =>
  simp only [holt] at h
  cases hlt : scale_lead_times olt nsteps with
  | error e =>
    simp only [hlt, Prod.mk.injEq] at h
    exact Or.inr (Or.inl ⟨ts, ilt, ivar, h.1.symm⟩)
  | ok lt =>
  simp only [hlt] at h
  cases hpop : dictPop (dictSet (dictUnion [("ensemble", CoordVal.ints (intRange nensemble))] c0)
      "lead_time" (CoordVal.ints lt)) "variable" with
  | error e =>
    simp only [hpop, Prod.mk.injEq] at h
    exact Or.inr (Or.inl ⟨ts, ilt, ivar, h.1.symm⟩)
  | ok q =>
  obtain ⟨vn, tc⟩ := q
  simp only [hpop] at h
  cases hmc : mc (x0.ensembleRepeat nensemble)
      (dictUnion [("ensemble", CoordVal.ints (intRange nensemble))] c0)
      prognostic.input_coords with
  | error e =>
    simp only [hmc, Prod.mk.injEq] at h
    exact Or.inr (Or.inr ⟨ts, ilt, ivar, tc, vn, h.1.symm⟩)
  | ok r2 =>
  obtain ⟨x2, cc2⟩ := r2
  simp only [hmc] at h
  cases hpm : pm seed x2 cc2 with
  | error e =>
    simp only [hpm, Prod.mk.injEq] at h
    exact Or.inr (Or.inr ⟨ts, ilt, ivar, tc, vn, h.1.symm⟩)
  | ok dx =>
  simp only [hpm] at h
  cases hadd : tensorAdd x2 dx with
  | error e =>
    simp only [hadd, Prod.mk.injEq] at h
    exact Or.inr (Or.inr ⟨ts, ilt, ivar, tc, vn, h.1.symm⟩)
  | ok x3 =>
    simp only [hadd, Prod.mk.injEq] at h
    exact Or.inr (Or.inr ⟨ts, ilt, ivar, tc, vn, h.1.symm⟩)

theorem run_events_split (time : List String) (nsteps : Int) (nensemble : Nat)
    (prognostic : PrognosticModel) (pm : PerturbationMethod) (data : DataSource)
    (io : IOBackend) (mc : MapCoords) (seed : Nat) (fuel : Nat) :
    ∃ rest,
      (run_ensemble time nsteps nensemble prognostic pm data io mc seed fuel).1 =
        (run_setup time nsteps nensemble prognostic pm data io mc seed).1 ++ rest ∧
      ∀ e ∈ rest, e.isWrite = true := by
  unfold run_ensemble
  cases hsetup : run_setup time nsteps nensemble prognostic pm data io mc seed with
  | mk evs r =>
  cases r with
  | error e => exact ⟨[], by simp, by simp⟩
  | ok z =>
  obtain ⟨io2, x3, c2⟩ := z
  refine ⟨(inference_loop (prognostic.create_iterator x3 c2) nsteps 0 io2 fuel).1, by simp, ?_⟩
  exact inference_loop_events_write (prognostic.create_iterator x3 c2) nsteps fuel 0 io2

theorem dictLookup_set_self (d : CoordSystem) (k : String) (v : CoordVal) :
    dictLookup (dictSet d k v) k = some v := by
  induction d with
  | nil => simp [dictSet, dictLookup]
  | cons hd tl ih =>
    obtain ⟨k1, v1⟩ := hd
    by_cases h1 : k1 = k
    · simp [dictSet, dictLookup, h1]
    · simp [dictSet, dictLookup, h1, ih]

theorem run_ok_elim (time : List String) (nsteps : Int) (nensemble : Nat)
    (prognostic : PrognosticModel) (pm : PerturbationMethod) (data : DataSource)
    (io : IOBackend) (mc : MapCoords) (seed : Nat) (fuel : Nat)
    (evs : List RunEvent) (io2 : IOBackend)
    (h : run_ensemble time nsteps nensemble prognostic pm data io mc seed fuel =
      (evs, some (.ok io2))) :
    ∃ sevs io1 x3 c2 levs,
      run_setup time nsteps nensemble prognostic pm data io mc seed = (sevs, .ok (io1, x3, c2)) ∧
      inference_loop (prognostic.create_iterator x3 c2) nsteps 0 io1 fuel =
        (levs, some (.ok io2)) ∧
      evs = sevs ++ levs := by
  unfold run_ensemble at h
  cases hsetup : run_setup time nsteps nensemble prognostic pm data io mc seed with
  | mk sevs r =>
  cases r with
  | error e =>
    rw [hsetup] at h
    simp at h
  | ok z =>
  obtain ⟨io1, x3, c2⟩ := z
  rw [hsetup] at h
  simp only [Prod.mk.injEq] at h
  obtain ⟨hevs, hr⟩ := h
  refine ⟨sevs, io1, x3, c2,
    (inference_loop (prognostic.create_iterator x3 c2) nsteps 0 io1 fuel).1, rfl, ?_, hevs.symm⟩
  rw [← hr]

theorem run_setup_schema_events (time : List String) (nsteps : Int) (nensemble : Nat)
    (prognostic : PrognosticModel) (pm : PerturbationMethod) (data : DataSource)
    (io : IOBackend) (mc : MapCoords) (seed : Nat)
    (ts : List Int) (ilt ivar : CoordVal) (x0 : Tensor) (c0 : CoordSystem)
    (d : Int) (vv : CoordVal)
    (hts : to_time_array time = .ok ts)
    (hilt : dictGet prognostic.input_coords "lead_time" = .ok ilt)
    (hivar : dictGet prognostic.input_coords "variable" = .ok ivar)
    (hfetch : fetch_data data ts ilt ivar = .ok (x0, c0))
    (holt : dictGet prognostic.output_coords "lead_time" = .ok (CoordVal.ints [d]))
    (hens : dictLookup c0 "ensemble" = none)
    (hvar : dictLookup c0 "variable" = some vv) :
    (run_setup time nsteps nensemble prognostic pm data io mc seed).1 =
      [RunEvent.fetchData ts ilt ivar,
       RunEvent.addArray (spec_output_schema c0 nensemble d nsteps) vv] := by
  have hu : dictUnion [("ensemble", CoordVal.ints (intRange nensemble))] c0 =
      ("ensemble", CoordVal.ints (intRange nensemble)) :: c0 :=
    dictUnion_singleton_of_notMem "ensemble" (CoordVal.ints (intRange nensemble)) c0 hens
  have hsetcons : dictSet (("ensemble", CoordVal.ints (intRange nensemble)) :: c0) "lead_time"
      (CoordVal.ints ((List.range (nsteps + 1).toNat).map fun (i : Nat) => (i : Int) * d)) =
      ("ensemble", CoordVal.ints (intRange nensemble)) :: dictSet c0 "lead_time"
        (CoordVal.ints ((List.range (nsteps + 1).toNat).map fun (i : Nat) => (i : Int) * d)) :=
    dictSet_cons_ne "ensemble" "lead_time" _ _ c0 (by decide)
  have hlook : dictLookup (("ensemble", CoordVal.ints (intRange nensemble)) :: dictSet c0
      "lead_time" (CoordVal.ints ((List.range (nsteps + 1).toNat).map fun (i : Nat) =>
        (i : Int) * d))) "variable" = some vv := by
    simp only [dictLookup, if_neg (by decide : ¬ ("ensemble" = "variable"))]
    rw [dictLookup_set_ne c0 "lead_time" "variable" _ (by decide)]
    exact hvar
  have hpop := dictPop_of_lookup _ "variable" vv hlook
  have hschema : dictErase (("ensemble", CoordVal.ints (intRange nensemble)) :: dictSet c0
      "lead_time" (CoordVal.ints ((List.range (nsteps + 1).toNat).map fun (i : Nat) =>
        (i : Int) * d))) "variable" = spec_output_schema c0 nensemble d nsteps := by
    unfold spec_output_schema
    rw [hsetcons]
  unfold run_setup
  simp only [hts, hilt, hivar, hfetch, holt, scale_lead_times_singleton]
  rw [hu, hsetcons]
  simp only [hpop, hschema]
  cases hmc : mc (x0.ensembleRepeat nensemble)
      (("ensemble", CoordVal.ints (intRange nensemble)) :: c0) prognostic.input_coords with
  | error e => simp [hmc]
  | ok p =>
  obtain ⟨x2, cc2⟩ := p
  cases hpm : pm seed x2 cc2 with
  | error e => simp [hmc, hpm]
  | ok dx =>
  cases hadd : tensorAdd x2 dx with
  | error e => simp [hmc, hpm, hadd]
  | ok x3 => simp [hmc, hpm, hadd]

theorem isWrite_not_isAddArray (e : RunEvent) (h : e.isWrite = true) :
    e.isAddArray = false := by
  cases e <;> simp_all [RunEvent.isWrite, RunEvent.isAddArray]

theorem parse_times_eq_none (l : List String) (s : String) (hs : s ∈ l)
    (hf : parse_time s = none) : parse_times l = none := by
  induction l with
  | nil => cases hs
  | cons hd tl ih =>
    rcases List.mem_cons.mp hs with rfl | hs2
    · simp [parse_times, hf]
    · cases hhd : parse_time hd with
      | none => simp [parse_times, hhd]
      | some v => simp [parse_times, hhd, ih hs2]

theorem addArrayEvents_append (a b : List RunEvent) :
    addArrayEvents (a ++ b) = addArrayEvents a ++ addArrayEvents b :=
  List.filter_append a b

theorem writeEvents_append (a b : List RunEvent) :
    writeEvents (a ++ b) = writeEvents a ++ writeEvents b :=
  List.filter_append a b

/-! ### Claim theorems -/

/-- Claim C5: immediately after the ensemble broadcast
`x = x.unsqueeze(0).repeat(nensemble, *([1] * x.ndim))` and before the
perturbation is applied, all `nensemble` members of the state tensor are
identical: for any two ensemble indices `i, j` the slices along the new
leading ensemble axis are equal. -/
theorem broadcast_members_identical (x : Tensor) (n i j : Nat)
    (hx : x.wf) (hi : i < n) (hj : j < n) :
    (x.ensembleRepeat n).memberSlice i = (x.ensembleRepeat n).memberSlice j := by
  rw [memberSlice_ensembleRepeat x n i hx hi, memberSlice_ensembleRepeat x n j hx hj]

/-- Witness for C5 at a concrete tensor and ensemble size. -/
theorem broadcast_members_identical_witness :
    sampleX0.wf ∧
    (sampleX0.ensembleRepeat 3).memberSlice 0 = (sampleX0.ensembleRepeat 3).memberSlice 2 :=
  ⟨rfl, broadcast_members_identical sampleX0 3 0 2 rfl (by decide) (by decide)⟩

/-- Claim C6: if the perturbation method returns the all-zero noise field
(whatever the ambient random state), the run is deterministic given the
(by construction deterministic) collaborators of this embedding: two runs
that differ only in the random seed produce identical event traces — in
particular identical write sequences — and identical outcomes. -/
theorem run_deterministic_zero_perturbation (time : List String) (nsteps : Int)
    (nensemble : Nat) (prognostic : PrognosticModel) (pm : PerturbationMethod)
    (data : DataSource) (io : IOBackend) (mc : MapCoords) (fuel : Nat)
    (hpm : ∀ s x c, pm s x c = .ok (zerosLike x)) (s1 s2 : Nat) :
    run_ensemble time nsteps nensemble prognostic pm data io mc s1 fuel =
      run_ensemble time nsteps nensemble prognostic pm data io mc s2 fuel := by
  have hsetup : run_setup time nsteps nensemble prognostic pm data io mc s1 =
      run_setup time nsteps nensemble prognostic pm data io mc s2 := by
    unfold run_setup
    simp only [hpm]
  unfold run_ensemble
  rw [hsetup]

/-- Witness for C6: two different seeds, identical run. -/
theorem run_deterministic_zero_perturbation_witness :
    run_ensemble ["0"] 1 2 sampleProg samplePM sampleData sampleSink sampleMC 0 4 =
      run_ensemble ["0"] 1 2 sampleProg samplePM sampleData sampleSink sampleMC 1 4 :=
  run_deterministic_zero_perturbation ["0"] 1 2 sampleProg samplePM sampleData sampleSink
    sampleMC 4 (fun _ _ _ => rfl) 0 1

/-- Claim C7: if the time list is empty or contains an unparsable entry, the
run fails before any data fetch from the source and before any write to the
sink: the event trace is empty (so in particular it has no fetch event and
no write event) and the outcome is the raised error. -/
theorem run_empty_time_fails_before_fetch (time : List String) (nsteps : Int)
    (nensemble : Nat) (prognostic : PrognosticModel) (pm : PerturbationMethod)
    (data : DataSource) (io : IOBackend) (mc : MapCoords) (seed : Nat) (fuel : Nat)
    (hbad : time = [] ∨ ∃ s ∈ time, parse_time s = none) :
    ∃ e, run_ensemble time nsteps nensemble prognostic pm data io mc seed fuel =
      ([], some (.error e)) := by
  have herr : ∃ e, to_time_array time = .error e := by
    rcases hbad with rfl | ⟨s, hs, hf⟩
    · exact ⟨"ValueError: empty time list", rfl⟩
    · refine ⟨"ValueError: unparsable time", ?_⟩
      unfold to_time_array
      have hne : ¬ (time.isEmpty = true) := by
        cases time with
        | nil => cases hs
        | cons a t => simp
      rw [if_neg hne, parse_times_eq_none time s hs hf]
  obtain ⟨e, he⟩ := herr
  refine ⟨e, ?_⟩
  have hsetup : run_setup time nsteps nensemble prognostic pm data io mc seed =
      ([], .error e) := by
    unfold run_setup
    simp only [he]
  unfold run_ensemble
  rw [hsetup]

/-- Witness for C7: the empty time list at concrete collaborators. -/
theorem run_empty_time_fails_before_fetch_witness :
    run_ensemble [] 2 3 sampleProg samplePM sampleData sampleSink sampleMC 0 5 =
      ([], some (.error "ValueError: empty time list")) := by
  obtain ⟨e, he⟩ := run_empty_time_fails_before_fetch [] 2 3 sampleProg samplePM sampleData
    sampleSink sampleMC 0 5 (Or.inl rfl)
  have h2 : (([] : List RunEvent),
      (some (Except.error e) : Option (Except Err IOBackend))) =
      ([], some (Except.error "ValueError: empty time list")) := he.symm.trans (by rfl)
  simp only [Prod.mk.injEq, Option.some.injEq, Except.error.injEq, true_and] at h2
  rw [he, h2]

/-- Claim C9: on successful completion, `run_ensemble` returns the very sink
object passed in as `io`, not a copy: object identity is modelled by the
`ident` field, which no backend operation alters, and the returned backend
carries the input backend's identity. -/
theorem run_returns_same_io (time : List String) (nsteps : Int) (nensemble : Nat)
    (prognostic : PrognosticModel) (pm : PerturbationMethod) (data : DataSource)
    (io : IOBackend) (mc : MapCoords) (seed : Nat) (fuel : Nat)
    (evs : List RunEvent) (io2 : IOBackend)
    (hrun : run_ensemble time nsteps nensemble prognostic pm data io mc seed fuel =
      (evs, some (.ok io2))) :
    io2.ident = io.ident := by
  obtain ⟨sevs, io1, x3, c2, levs, hsetup, hloop, hevs⟩ :=
    run_ok_elim time nsteps nensemble prognostic pm data io mc seed fuel evs io2 hrun
  obtain ⟨ts, ilt, ivar, x0, c0, olt, lt, vn, tc, x2, dx, -, -, -, -, -, -, -, -, -, -, -,
    hio1⟩ := run_setup_ok_elim time nsteps nensemble prognostic pm data io mc seed sevs io1
      x3 c2 hsetup
  obtain ⟨-, -, -, hident⟩ :=
    inference_loop_ok_elim (prognostic.create_iterator x3 c2) nsteps fuel 0 io1 levs io2 hloop
  rw [hident, hio1]
  rfl

/-- Witness for C9 at a concrete successful run. -/
theorem run_returns_same_io_witness :
    (okBackend (run_ensemble ["0"] 0 3 sampleProg samplePM sampleData sampleSink sampleMC
      0 5).2 sampleSink).ident = sampleSink.ident :=
  run_returns_same_io ["0"] 0 3 sampleProg samplePM sampleData sampleSink sampleMC 0 5
    (run_ensemble ["0"] 0 3 sampleProg samplePM sampleData sampleSink sampleMC 0 5).1
    (okBackend (run_ensemble ["0"] 0 3 sampleProg samplePM sampleData sampleSink sampleMC
      0 5).2 sampleSink) (by rfl)

/-- Claim C2: in every run the sink's schema is declared (`io.add_array`) at
most once, a run that completes successfully declares it exactly once, and
every declaration strictly precedes every write to the sink (so the declared
schema is never altered after the first write). -/
theorem run_schema_declared_once_before_writes (time : List String) (nsteps : Int)
    (nensemble : Nat) (prognostic : PrognosticModel) (pm : PerturbationMethod)
    (data : DataSource) (io : IOBackend) (mc : MapCoords) (seed : Nat) (fuel : Nat)
    (evs : List RunEvent) (r : Option (Except Err IOBackend))
    (hrun : run_ensemble time nsteps nensemble prognostic pm data io mc seed fuel = (evs, r)) :
    (addArrayEvents evs).length ≤ 1 ∧
    (∀ io2, r = some (.ok io2) → (addArrayEvents evs).length = 1) ∧
    (∀ (i j : Nat) (ei ej : RunEvent), evs[i]? = some ei → evs[j]? = some ej →
      ei.isAddArray = true → ej.isWrite = true → i < j) := by
  obtain ⟨rest, hsplit, hrest⟩ :=
    run_events_split time nsteps nensemble prognostic pm data io mc seed fuel
  rw [hrun] at hsplit
  simp only at hsplit
  have hshape := run_setup_events_cases time nsteps nensemble prognostic pm data io mc seed
    (run_setup time nsteps nensemble prognostic pm data io mc seed).1
    (run_setup time nsteps nensemble prognostic pm data io mc seed).2 rfl
  have hrest_none : addArrayEvents rest = [] := by
    rw [addArrayEvents, List.filter_eq_nil_iff]
    intro e he
    rw [isWrite_not_isAddArray e (hrest e he)]
    simp
  have hsevs_nowrite : ∀ e ∈ (run_setup time nsteps nensemble prognostic pm data io mc
      seed).1, e.isWrite = false := by
    intro e he
    rcases hshape with h0 | ⟨t, l, v, h1⟩ | ⟨t, l, v, tc, vn, h2⟩
    · rw [h0] at he
      cases he
    · rw [h1] at he
      simp only [List.mem_singleton] at he
      subst he
      rfl
    · rw [h2] at he
      simp only [List.mem_cons, List.mem_singleton] at he
      rcases he with rfl | rfl | h
      · rfl
      · rfl
      · cases h
  have hcount : (addArrayEvents (run_setup time nsteps nensemble prognostic pm data io mc
      seed).1).length ≤ 1 := by
    rcases hshape with h0 | ⟨t, l, v, h1⟩ | ⟨t, l, v, tc, vn, h2⟩
    · rw [h0]
      simp [addArrayEvents]
    · rw [h1]
      simp [addArrayEvents, List.filter, RunEvent.isAddArray]
    · rw [h2]
      simp [addArrayEvents, List.filter, RunEvent.isAddArray]
  refine ⟨?_, ?_, ?_⟩
  · rw [hsplit, addArrayEvents_append, hrest_none, List.append_nil]
    exact hcount
  · intro io2 hr
    subst hr
    obtain ⟨sevs, io1, x3, c2, levs, hsetup, hloop, hevs⟩ :=
      run_ok_elim time nsteps nensemble prognostic pm data io mc seed fuel evs io2 hrun
    obtain ⟨ts, ilt, ivar, x0, c0, olt, lt, vn, tc, x2, dx, -, -, -, -, -, -, -, -, -, -,
      hsevs, -⟩ := run_setup_ok_elim time nsteps nensemble prognostic pm data io mc seed
        sevs io1 x3 c2 hsetup
    have hlevs_w : ∀ e ∈ levs, e.isWrite = true := by
      intro e he
      have := inference_loop_events_write (prognostic.create_iterator x3 c2) nsteps fuel 0 io1
      rw [hloop] at this
      exact this e he
    have hlevs_none : addArrayEvents levs = [] := by
      rw [addArrayEvents, List.filter_eq_nil_iff]
      intro e he
      rw [isWrite_not_isAddArray e (hlevs_w e he)]
      simp
    rw [hevs, hsevs, addArrayEvents_append, hlevs_none, List.append_nil]
    rfl
  · intro i j ei ej hei hej hia hiw
    set sevs := (run_setup time nsteps nensemble prognostic pm data io mc seed).1 with hsevs
    have hjge : sevs.length ≤ j := by
      by_contra hjlt
      push_neg at hjlt
      rw [hsplit, List.getElem?_append, if_pos hjlt] at hej
      have hmem := List.getElem?_mem hej
      rw [hsevs_nowrite ej hmem] at hiw
      cases hiw
    have hilt2 : i < sevs.length := by
      by_contra hige
      push_neg at hige
      rw [hsplit, List.getElem?_append_right hige] at hei
      have hmem := List.getElem?_mem hei
      rw [isWrite_not_isAddArray ei (hrest ei hmem)] at hia
      cases hia
    have hei2 : sevs[i]? = some ei := by
      rw [hsplit, List.getElem?_append, if_pos hilt2] at hei
      exact hei
    rcases hshape with h0 | ⟨t, l, v, h1⟩ | ⟨t, l, v, tc, vn, h2⟩
    · rw [h0] at hilt2
      cases hilt2
    · have hi0 : i = 0 := by
        rw [h1] at hilt2
        simpa using hilt2
      subst hi0
      rw [h1] at hei2
      simp only [List.getElem?_cons_zero, Option.some.injEq] at hei2
      rw [← hei2] at hia
      cases hia
    · have hlen2 : sevs.length = 2 := by rw [h2]; rfl
      have hi01 : i = 0 ∨ i = 1 := by omega
      rcases hi01 with rfl | rfl
      · rw [h2] at hei2
        simp only [List.getElem?_cons_zero, Option.some.injEq] at hei2
        rw [← hei2] at hia
        cases hia
      · omega

/-- Witness for C2: the schema is declared exactly once in a concrete
successful run. -/
theorem run_schema_declared_once_before_writes_witness :
    (addArrayEvents (run_ensemble ["0"] 0 3 sampleProg samplePM sampleData sampleSink
      sampleMC 0 5).1).length = 1 :=
  (run_schema_declared_once_before_writes ["0"] 0 3 sampleProg samplePM sampleData sampleSink
      sampleMC 0 5
      (run_ensemble ["0"] 0 3 sampleProg samplePM sampleData sampleSink sampleMC 0 5).1
      (run_ensemble ["0"] 0 3 sampleProg samplePM sampleData sampleSink sampleMC 0 5).2
      (by rfl)).2.1
    (okBackend (run_ensemble ["0"] 0 3 sampleProg samplePM sampleData sampleSink sampleMC
      0 5).2 sampleSink) (by rfl)

/-- Claim C3: the coordinate schema declared to the sink equals the fetch
coordinates extended with the prepended ensemble dimension and a lead-time
axis of length `nsteps + 1` whose `i`-th entry is `i` times the prognostic's
native output lead-time step `d`, with the variable names removed from the
schema and passed separately as the channel list (`spec_output_schema`
renders exactly the spec's wording). -/
theorem run_declared_schema_matches_spec (time : List String) (nsteps : Int)
    (nensemble : Nat) (prognostic : PrognosticModel) (pm : PerturbationMethod)
    (data : DataSource) (io : IOBackend) (mc : MapCoords) (seed : Nat) (fuel : Nat)
    (ts : List Int) (ilt ivar : CoordVal) (x0 : Tensor) (c0 : CoordSystem)
    (d : Int) (vv : CoordVal)
    (hts : to_time_array time = .ok ts)
    (hilt : dictGet prognostic.input_coords "lead_time" = .ok ilt)
    (hivar : dictGet prognostic.input_coords "variable" = .ok ivar)
    (hfetch : fetch_data data ts ilt ivar = .ok (x0, c0))
    (holt : dictGet prognostic.output_coords "lead_time" = .ok (CoordVal.ints [d]))
    (hens : dictLookup c0 "ensemble" = none)
    (hvar : dictLookup c0 "variable" = some vv) :
    ∃ rest, (run_ensemble time nsteps nensemble prognostic pm data io mc seed fuel).1 =
      RunEvent.fetchData ts ilt ivar ::
        RunEvent.addArray (spec_output_schema c0 nensemble d nsteps) vv :: rest := by
  obtain ⟨rest, hsplit, -⟩ :=
    run_events_split time nsteps nensemble prognostic pm data io mc seed fuel
  rw [run_setup_schema_events time nsteps nensemble prognostic pm data io mc seed ts ilt
    ivar x0 c0 d vv hts hilt hivar hfetch holt hens hvar] at hsplit
  exact ⟨rest, hsplit⟩

/-- Witness for C3 at concrete collaborators: the second event of the run is
the declaration of exactly the spec-described schema with the fetch's
variable names as channel list. -/
theorem run_declared_schema_matches_spec_witness :
    (run_ensemble ["0"] 2 3 sampleProg samplePM sampleData sampleSink sampleMC 0 5).1[1]? =
      some (RunEvent.addArray (spec_output_schema sampleC0 3 6 2) (CoordVal.strs ["a"])) := by
  obtain ⟨rest, h⟩ := run_declared_schema_matches_spec ["0"] 2 3 sampleProg samplePM
    sampleData sampleSink sampleMC 0 5 [0] (CoordVal.ints [0]) (CoordVal.strs ["a"]) sampleX0
    sampleC0 6 (CoordVal.strs ["a"]) rfl rfl rfl rfl rfl rfl rfl
  rw [h]
  simp

/-- Claim C1: for a run that completes successfully (so no collaborator
raised), given a prognostic whose `k`-th yield carries lead time `k` times
the native step `dt`, the precondition `nsteps ≥ 0` holds, the sink receives
exactly `nsteps + 1` writes, and the `i`-th write (in trace order) targets
lead-time index `i` — the indices `0 .. nsteps` in strictly increasing
order, no index written twice. -/
theorem run_write_schedule (time : List String) (nsteps : Int) (nensemble : Nat)
    (prognostic : PrognosticModel) (pm : PerturbationMethod) (data : DataSource)
    (io : IOBackend) (mc : MapCoords) (seed : Nat) (fuel : Nat)
    (evs : List RunEvent) (io2 : IOBackend) (dt : Int)
    (hconf : ∀ x c k y d2, prognostic.create_iterator x c k = .ok (y, d2) →
      dictLookup d2 "lead_time" = some (CoordVal.ints [dt * (k : Int)]))
    (hrun : run_ensemble time nsteps nensemble prognostic pm data io mc seed fuel =
      (evs, some (.ok io2))) :
    0 ≤ nsteps ∧
    (writeEvents evs).length = (nsteps + 1).toNat ∧
    (∀ i : Nat, i < (writeEvents evs).length →
      ∃ x c, (writeEvents evs)[i]? = some (RunEvent.write x c) ∧
        dictLookup c "lead_time" = some (CoordVal.ints [dt * (i : Int)])) := by
  obtain ⟨sevs, io1, x3, c2, levs, hsetup, hloop, hevs⟩ :=
    run_ok_elim time nsteps nensemble prognostic pm data io mc seed fuel evs io2 hrun
  obtain ⟨ts, ilt, ivar, x0, c0, olt, lt, vn, tc, x2, dx, -, -, -, -, -, -, -, -, -, -,
    hsevs, -⟩ := run_setup_ok_elim time nsteps nensemble prognostic pm data io mc seed
      sevs io1 x3 c2 hsetup
  obtain ⟨hle, hlen, hidx, -⟩ :=
    inference_loop_ok_elim (prognostic.create_iterator x3 c2) nsteps fuel 0 io1 levs io2 hloop
  have h0 : (0 : Int) ≤ nsteps := by exact_mod_cast hle
  have hlevs_w : ∀ e ∈ levs, e.isWrite = true := by
    intro e he
    have := inference_loop_events_write (prognostic.create_iterator x3 c2) nsteps fuel 0 io1
    rw [hloop] at this
    exact this e he
  have hwevs : writeEvents evs = levs := by
    rw [hevs, hsevs, writeEvents_append]
    have h1 : writeEvents [RunEvent.fetchData ts ilt ivar, RunEvent.addArray tc vn] = [] := rfl
    have h2 : writeEvents levs = levs := List.filter_eq_self.mpr hlevs_w
    rw [h1, h2, List.nil_append]
  refine ⟨h0, ?_, ?_⟩
  · rw [hwevs, hlen]
    omega
  · intro i hi
    rw [hwevs] at hi ⊢
    obtain ⟨x, c, hm, hget⟩ := hidx i hi
    refine ⟨(extract_coords x c).1, (extract_coords x c).2, hget, ?_⟩
    rw [extract_coords_lookup x c "lead_time" (by decide)]
    have hlead := hconf x3 c2 (0 + i) x c hm
    simpa using hlead

/-- Witness for C1: the concrete run with `nsteps = 2` performs exactly
three writes. -/
theorem run_write_schedule_witness :
    (writeEvents (run_ensemble ["0"] 2 3 sampleProg samplePM sampleData sampleSink sampleMC
      0 5).1).length = ((2 : Int) + 1).toNat := by
  have hconf : ∀ x c k y d2, sampleProg.create_iterator x c k = .ok (y, d2) →
      dictLookup d2 "lead_time" = some (CoordVal.ints [6 * (k : Int)]) := by
    intro x c k y d2 h
    simp only [sampleProg, Except.ok.injEq, Prod.mk.injEq] at h
    obtain ⟨h1, h2⟩ := h
    rw [← h2]
    exact dictLookup_set_self c "lead_time" _
  obtain ⟨-, hlen, -⟩ := run_write_schedule ["0"] 2 3 sampleProg samplePM sampleData
    sampleSink sampleMC 0 5
    (run_ensemble ["0"] 2 3 sampleProg samplePM sampleData sampleSink sampleMC 0 5).1
    (okBackend (run_ensemble ["0"] 2 3 sampleProg samplePM sampleData sampleSink sampleMC
      0 5).2 sampleSink) 6 hconf (by rfl)
  exact hlen

theorem run_setup_no_write (time : List String) (nsteps : Int) (nensemble : Nat)
    (prognostic : PrognosticModel) (pm : PerturbationMethod) (data : DataSource)
    (io : IOBackend) (mc : MapCoords) (seed : Nat) (evs : List RunEvent)
    (r : Except Err (IOBackend × Tensor × CoordSystem))
    (h : run_setup time nsteps nensemble prognostic pm data io mc seed = (evs, r)) :
    ∀ e2 ∈ evs, e2.isWrite = false := by
  intro e2 he
  rcases run_setup_events_cases time nsteps nensemble prognostic pm data io mc seed evs r h
    with h0 | ⟨t, l, v, h1⟩ | ⟨t, l, v, tc, vn, h2⟩
  · rw [h0] at he
    cases he
  · rw [h1] at he
    simp only [List.mem_singleton] at he
    subst he
    rfl
  · rw [h2] at he
    simp only [List.mem_cons, List.mem_singleton] at he
    rcases he with rfl | rfl | hf
    · rfl
    · rfl
    · cases hf

/-- Claim C4: the fetched initial-condition tensor is broadcast across a new
leading ensemble dimension of size `nensemble` (the ensemble axis is
prepended as axis 0, and the declared schema's first dimension is
`"ensemble"` with coordinate values `0 .. nensemble - 1`), and — for
collaborators that preserve the leading batch axis, as the spec's interfaces
do — the ensemble dimension of every tensor written to the sink has size
exactly `nensemble`. -/
theorem run_ensemble_dimension (time : List String) (nsteps : Int) (nensemble : Nat)
    (prognostic : PrognosticModel) (pm : PerturbationMethod) (data : DataSource)
    (io : IOBackend) (mc : MapCoords) (seed : Nat) (fuel : Nat)
    (ts : List Int) (ilt ivar : CoordVal) (x0 : Tensor) (c0 : CoordSystem)
    (d : Int) (vv : CoordVal) (evs : List RunEvent) (r : Option (Except Err IOBackend))
    (hrun : run_ensemble time nsteps nensemble prognostic pm data io mc seed fuel = (evs, r))
    (hmc : ∀ x c ic y d2, mc x c ic = .ok (y, d2) → y.shape.head? = x.shape.head?)
    (hiter : ∀ x c k y d2, prognostic.create_iterator x c k = .ok (y, d2) →
      y.shape.head? = x.shape.head?)
    (hts : to_time_array time = .ok ts)
    (hilt : dictGet prognostic.input_coords "lead_time" = .ok ilt)
    (hivar : dictGet prognostic.input_coords "variable" = .ok ivar)
    (hfetch : fetch_data data ts ilt ivar = .ok (x0, c0))
    (holt : dictGet prognostic.output_coords "lead_time" = .ok (CoordVal.ints [d]))
    (hens : dictLookup c0 "ensemble" = none)
    (hvar : dictLookup c0 "variable" = some vv) :
    (x0.ensembleRepeat nensemble).shape = nensemble :: x0.shape ∧
    (∃ rest, evs = RunEvent.fetchData ts ilt ivar ::
      RunEvent.addArray (spec_output_schema c0 nensemble d nsteps) vv :: rest) ∧
    (spec_output_schema c0 nensemble d nsteps).head? =
      some ("ensemble", CoordVal.ints (intRange nensemble)) ∧
    (∀ x c, RunEvent.write x c ∈ evs → x.shape.head? = some nensemble) := by
  refine ⟨rfl, ?_, ?_, ?_⟩
  · obtain ⟨rest, hsplit, -⟩ :=
      run_events_split time nsteps nensemble prognostic pm data io mc seed fuel
    rw [run_setup_schema_events time nsteps nensemble prognostic pm data io mc seed ts ilt
      ivar x0 c0 d vv hts hilt hivar hfetch holt hens hvar, hrun] at hsplit
    exact ⟨rest, hsplit⟩
  · unfold spec_output_schema
    rw [dictSet_cons_ne "ensemble" "lead_time" _ _ c0 (by decide),
      dictErase_cons_ne "ensemble" "variable" _ _ (by decide)]
    rfl
  · intro x c hmem
    unfold run_ensemble at hrun
    cases hsetup : run_setup time nsteps nensemble prognostic pm data io mc seed with
    | mk sevs r0 =>
    cases r0 with
    | error e =>
      rw [hsetup] at hrun
      simp only [Prod.mk.injEq] at hrun
      rw [← hrun.1] at hmem
      have := run_setup_no_write time nsteps nensemble prognostic pm data io mc seed sevs
        (.error e) hsetup (RunEvent.write x c) hmem
      cases this
    | ok z =>
      obtain ⟨io1, x3, c2⟩ := z
      rw [hsetup] at hrun
      simp only [Prod.mk.injEq] at hrun
      rw [← hrun.1, List.mem_append] at hmem
      rcases hmem with hmem | hmem
      · have := run_setup_no_write time nsteps nensemble prognostic pm data io mc seed sevs
          (.ok (io1, x3, c2)) hsetup (RunEvent.write x c) hmem
        cases this
      · -- the write came from the inference loop; its tensor descends from the
        -- perturbed broadcast state, whose leading axis has size nensemble
        obtain ⟨ts2, ilt2, ivar2, x02, c02, olt2, lt2, vn2, tc2, x22, dx2, -, -, -, -, -, -,
          -, hmc2, -, hadd2, -, -⟩ := run_setup_ok_elim time nsteps nensemble prognostic pm
            data io mc seed sevs io1 x3 c2 hsetup
        have hx3 : x3.shape.head? = some nensemble := by
          have h1 : x3.shape = x22.shape := tensorAdd_ok_shape x22 dx2 x3 hadd2
          have h2 := hmc _ _ _ _ _ hmc2
          rw [h1, h2]
          rfl
        exact inference_loop_write_shape (prognostic.create_iterator x3 c2) nsteps nensemble
          (fun k y d2 hk => by rw [hiter x3 c2 k y d2 hk]; exact hx3) fuel 0 io1 x c hmem

/-- Witness for C4: the broadcast prepends the ensemble axis and the
spec-described schema's leading dimension is the ensemble coordinate
`0 .. nensemble - 1`, at concrete collaborators. -/
theorem run_ensemble_dimension_witness :
    (sampleX0.ensembleRepeat 3).shape = 3 :: sampleX0.shape ∧
    (spec_output_schema sampleC0 3 6 2).head? =
      some ("ensemble", CoordVal.ints (intRange 3)) := by
  obtain ⟨h1, -, h3, -⟩ := run_ensemble_dimension ["0"] 2 3 sampleProg samplePM sampleData
    sampleSink sampleMC 0 5 [0] (CoordVal.ints [0]) (CoordVal.strs ["a"]) sampleX0 sampleC0 6
    (CoordVal.strs ["a"])
    (run_ensemble ["0"] 2 3 sampleProg samplePM sampleData sampleSink sampleMC 0 5).1
    (run_ensemble ["0"] 2 3 sampleProg samplePM sampleData sampleSink sampleMC 0 5).2
    (by rfl)
    (fun x c ic y d2 h => by
      simp only [sampleMC, Except.ok.injEq, Prod.mk.injEq] at h
      rw [h.1])
    (fun x c k y d2 h => by
      simp only [sampleProg, Except.ok.injEq, Prod.mk.injEq] at h
      rw [h.1])
    rfl rfl rfl rfl rfl rfl rfl
  exact ⟨h1, h3⟩

/-- Claim C10: termination of the write loop requires `nsteps ≥ 0`: the loop
breaks only when the step counter (starting at 0) equals `nsteps`.  Given a
setup phase that succeeds (no validation anywhere rejects a negative
`nsteps` — the run proceeds into the loop) and a logically infinite
prognostic sequence, a negative `nsteps` makes the loop run forever (no
result within any fuel bound), while `nsteps ≥ 0` makes it terminate after
exactly `nsteps + 1` iterations. -/
theorem run_loop_termination (time : List String) (nsteps : Int) (nensemble : Nat)
    (prognostic : PrognosticModel) (pm : PerturbationMethod) (data : DataSource)
    (io : IOBackend) (mc : MapCoords) (seed : Nat)
    (sevs : List RunEvent) (io1 : IOBackend) (x3 : Tensor) (c2 : CoordSystem)
    (hsetup : run_setup time nsteps nensemble prognostic pm data io mc seed =
      (sevs, .ok (io1, x3, c2)))
    (hiter : ∀ x c k, ∃ y, prognostic.create_iterator x c k = .ok y) :
    (nsteps < 0 → ∀ fuel,
      (run_ensemble time nsteps nensemble prognostic pm data io mc seed fuel).2 = none) ∧
    (0 ≤ nsteps → ∀ fuel, (nsteps + 1).toNat ≤ fuel →
      ∃ io2, (run_ensemble time nsteps nensemble prognostic pm data io mc seed fuel).2 =
        some (.ok io2)) := by
  have hrun2 : ∀ fuel, (run_ensemble time nsteps nensemble prognostic pm data io mc seed
      fuel).2 = (inference_loop (prognostic.create_iterator x3 c2) nsteps 0 io1 fuel).2 := by
    intro fuel
    unfold run_ensemble
    simp only [hsetup]
  constructor
  · intro hn fuel
    rw [hrun2 fuel]
    exact inference_loop_nonterminating _ nsteps hn (hiter x3 c2) fuel 0 io1
  · intro hn fuel hfuel
    obtain ⟨evs2, io2, hl⟩ := inference_loop_total _ nsteps (hiter x3 c2) fuel 0 io1
      (by exact_mod_cast hn) (by omega)
    refine ⟨io2, ?_⟩
    rw [hrun2 fuel, hl]

/-- Witness for C10: with `nsteps = -1` and ample fuel the concrete run has
no result — the loop is still running. -/
theorem run_loop_termination_witness :
    (run_ensemble ["0"] (-1) 2 sampleProg samplePM sampleData sampleSink sampleMC 0 7).2 =
      none := by
  have h := run_loop_termination ["0"] (-1) 2 sampleProg samplePM sampleData sampleSink
    sampleMC 0
    (run_setup ["0"] (-1) 2 sampleProg samplePM sampleData sampleSink sampleMC 0).1
    (setupTriple (run_setup ["0"] (-1) 2 sampleProg samplePM sampleData sampleSink sampleMC
      0).2 (sampleSink, sampleX0, sampleC0)).1
    (setupTriple (run_setup ["0"] (-1) 2 sampleProg samplePM sampleData sampleSink sampleMC
      0).2 (sampleSink, sampleX0, sampleC0)).2.1
    (setupTriple (run_setup ["0"] (-1) 2 sampleProg samplePM sampleData sampleSink sampleMC
      0).2 (sampleSink, sampleX0, sampleC0)).2.2
    (by rfl)
    (fun x c k => ⟨(x, dictSet c "lead_time" (CoordVal.ints [6 * (k : Int)])), rfl⟩)
  exact h.1 (by decide) 7

/-- Claim C8: every collaborator failure is unrecovered — it propagates
immediately to the caller and aborts the run, with no retry and no
catch-and-continue anywhere in `run_ensemble`: (1) a data-source failure
(e.g. unavailable variables) aborts the run with exactly the fetch event in
the trace, hence no write; (2) any failure raised in the setup phase
(coordinate alignment by `map_coords`, the perturbation call, the shape
mismatch check of the in-place add) surfaces unchanged as the run's outcome
with the trace exactly as it stood, which contains no write; (3) a
prognostic iterator failure at step `k` aborts the run with that error
after exactly the `k` earlier writes. -/
theorem run_error_propagation (time : List String) (nsteps : Int) (nensemble : Nat)
    (prognostic : PrognosticModel) (pm : PerturbationMethod) (data : DataSource)
    (io : IOBackend) (mc : MapCoords) (seed : Nat) (fuel : Nat)
    (ts : List Int) (ilt ivar : CoordVal) (e : Err) :
    ((to_time_array time = .ok ts) →
      (dictGet prognostic.input_coords "lead_time" = .ok ilt) →
      (dictGet prognostic.input_coords "variable" = .ok ivar) →
      (fetch_data data ts ilt ivar = .error e) →
      run_ensemble time nsteps nensemble prognostic pm data io mc seed fuel =
        ([RunEvent.fetchData ts ilt ivar], some (.error e))) ∧
    (∀ sevs, run_setup time nsteps nensemble prognostic pm data io mc seed =
        (sevs, .error e) →
      run_ensemble time nsteps nensemble prognostic pm data io mc seed fuel =
        (sevs, some (.error e)) ∧ writeEvents sevs = []) ∧
    (∀ sevs io1 x3 c2 k,
      run_setup time nsteps nensemble prognostic pm data io mc seed =
        (sevs, .ok (io1, x3, c2)) →
      (∀ j, j < k → ∃ y, prognostic.create_iterator x3 c2 j = .ok y) →
      (∀ j : Nat, j < k → ¬ ((j : Int) = nsteps)) →
      prognostic.create_iterator x3 c2 k = .error e →
      k < fuel →
      ∃ wevs, run_ensemble time nsteps nensemble prognostic pm data io mc seed fuel =
        (sevs ++ wevs, some (.error e)) ∧ wevs.length = k) := by
  refine ⟨?_, ?_, ?_⟩
  · intro hts hilt hivar hfetch
    have hsetup : run_setup time nsteps nensemble prognostic pm data io mc seed =
        ([RunEvent.fetchData ts ilt ivar], .error e) := by
      unfold run_setup
      simp only [hts, hilt, hivar, hfetch]
    unfold run_ensemble
    simp only [hsetup]
  · intro sevs hsetup
    constructor
    · unfold run_ensemble
      simp only [hsetup]
    · rw [writeEvents, List.filter_eq_nil_iff]
      intro e2 he2
      rw [run_setup_no_write time nsteps nensemble prognostic pm data io mc seed sevs
        (.error e) hsetup e2 he2]
      simp
  · intro sevs io1 x3 c2 k hsetup hok hne he hfuel
    obtain ⟨wevs, hl, hlen⟩ := inference_loop_err_elim
      (prognostic.create_iterator x3 c2) nsteps e k fuel 0 io1
      (fun j hj => by
        obtain ⟨⟨x, c⟩, hy⟩ := hok j hj
        exact ⟨x, c, by simpa using hy⟩)
      (fun j hj => by simpa using hne j hj)
      (by simpa using he) hfuel
    refine ⟨wevs, ?_, hlen⟩
    unfold run_ensemble
    simp only [hsetup, hl]

/-- Witness for C8: a failing data source at concrete collaborators — the
error surfaces as the run's outcome and only the fetch event happened. -/
theorem run_error_propagation_witness :
    run_ensemble ["0"] 2 3 sampleProg samplePM failingData sampleSink sampleMC 0 5 =
      ([RunEvent.fetchData [0] (CoordVal.ints [0]) (CoordVal.strs ["a"])],
       some (.error "unavailable variable")) :=
  (run_error_propagation ["0"] 2 3 sampleProg samplePM failingData sampleSink sampleMC 0 5
    [0] (CoordVal.ints [0]) (CoordVal.strs ["a"]) "unavailable variable").1
    rfl rfl rfl rfl

end EnsembleWorkflow
